import Mathlib

/-!
Verification of the quadrature/interpolation utilities (`spl/utilities/integrate.py`)
and of the spec-level model of the FEEC core (global projectors as Kronecker
operators/solvers, discrete derivative stencils) of this repository.

Numbers are modelled by exact rationals; Python `np.array` data of shape `(k, ne)`
is modelled by total functions `ℕ → ℕ → ℚ` together with the shape numbers,
and 1-d arrays by `List ℚ`.
-/

/-! ### QuadratureEngine leaf, from `spl/utilities/integrate.py` -/

/-- One column `A[:, ie]` of a `(k, ne)`-shaped array: the entries `A r ie` for `r < k`. -/
def column (A : ℕ → ℕ → ℚ) (k ie : ℕ) : List ℚ :=
  (List.range k).map fun r => A r ie

/-- From the source (`integrate`): for each element index `ie < ne`
(`ne = points.shape[1]`) take the columns `X = points[:, ie]`, `W = weights[:, ie]`
and sum `w * f(x)` over the zipped pairs `(x, w)`. -/
def integrate (k ne : ℕ) (points weights : ℕ → ℕ → ℚ) (f : ℚ → ℚ) : List ℚ :=
  (List.range ne).map fun ie =>
    (((column points k ie).zip (column weights k ie)).map fun xw => xw.2 * f xw.1).sum

/-- Modelled from the spec: `compute_greville` (imported from `spl.core`, not under
`src/`) returns the canonical evaluation abscissae of the spline space `(p, n, T)`:
one abscissa per basis function, the average of `p` consecutive interior knots. -/
def compute_greville (p n : ℕ) (T : List ℚ) : List ℚ :=
  (List.range n).map fun i => (((List.range p).map fun j => T.getD (i + j + 1) 0).sum) / p

/-- Modelled from the spec: `construct_grid_from_knots` (imported from `spl.core`, not
under `src/`) returns the element grid induced by the knot vector: the breakpoints
`T[p], ..., T[n]`. -/
def construct_grid_from_knots (p n : ℕ) (T : List ℚ) : List ℚ :=
  (List.range (n + 1 - p)).map fun i => T.getD (p + i) 0

/-- Modelled from the spec: `construct_quadrature_grid` (imported from `spl.core`, not
under `src/`) maps a reference quadrature rule `(u, w)` on `[-1, 1]` onto each element
of the grid: points are moved affinely into the element, weights are scaled by the
element half-length.  Returns the `(k, ne)`-shaped pair `(points, weights)`. -/
def construct_quadrature_grid (u w : List ℚ) (grid : List ℚ) :
    (ℕ → ℕ → ℚ) × (ℕ → ℕ → ℚ) :=
  (fun r ie => (grid.getD ie 0 + grid.getD (ie + 1) 0) / 2
      + (grid.getD (ie + 1) 0 - grid.getD ie 0) / 2 * u.getD r 0,
   fun r ie => (grid.getD (ie + 1) 0 - grid.getD ie 0) / 2 * w.getD r 0)

/-- The state stored by `Integral.__init__`: the grid, the configuration and the
quadrature arrays (whose shape `(nq, ne)` is carried explicitly). -/
structure IntegralObj where
  grid : List ℚ
  kind : String
  p : ℕ
  n : ℕ
  T : List ℚ
  nq : ℕ
  ne : ℕ
  points : ℕ → ℕ → ℚ
  weights : ℕ → ℕ → ℚ

/-- From the source (`Integral.__init__`).  The imported `gauss_legendre` rule generator
is a parameter `gl` (its module is not under `src/`); as in the source it receives
`k - 1`.  The `assert kind in ['natural', 'greville']` is the `Option` guard, placed
before any grid or quadrature state is built, exactly as in the source; an omitted
quadrature order (`k = none`) becomes `p + 1`. -/
def Integral.make (gl : ℕ → List ℚ × List ℚ) (p n : ℕ) (T : List ℚ)
    (kind : String) (k : Option ℕ) : Option IntegralObj :=
  if kind = "natural" ∨ kind = "greville" then
    let grid := if kind = "natural" then construct_grid_from_knots p n T
                else compute_greville p n T
    let kq := k.getD (p + 1)
    let uw := gl (kq - 1)
    let ne := grid.length - 1
    let pw := construct_quadrature_grid uw.1 uw.2 grid
    some { grid := grid, kind := kind, p := p, n := n, T := T,
           nq := kq, ne := ne, points := pw.1, weights := pw.2 }
  else none

/-- From the source (`Integral.__call__`): integrate `f` over each element of the grid.
The method body only reads the stored state; the explicit state passing returns the
object alongside the result. -/
def IntegralObj.call (o : IntegralObj) (f : ℚ → ℚ) : List ℚ × IntegralObj :=
  (integrate o.nq o.ne o.points o.weights f, o)

/-- The state stored by `Interpolation.__init__`. -/
structure InterpolationObj where
  sites : List ℚ
  p : ℕ
  n : ℕ
  T : List ℚ

/-- From the source (`Interpolation.__init__`): omitted sites (`none`) default to the
Greville abscissae of the space `(p, n, T)`. -/
def Interpolation.make (p n : ℕ) (T : List ℚ) (sites : Option (List ℚ)) :
    InterpolationObj :=
  { sites := sites.getD (compute_greville p n T), p := p, n := n, T := T }

/-- From the source (`Interpolation.__call__`): evaluate `f` over the sites,
`[f(x) for x in self._sites]`.  The method body only reads the stored state. -/
def InterpolationObj.call (o : InterpolationObj) (f : ℚ → ℚ) : List ℚ × InterpolationObj :=
  (o.sites.map f, o)

/-! ### Helper lemmas for list sums over ranges -/

theorem sum_map_range (n : ℕ) (g : ℕ → ℚ) :
    (((List.range n).map g).sum) = ∑ r ∈ Finset.range n, g r := by
  induction n with
  | zero => simp
  | succ m ih => rw [List.range_succ, Finset.sum_range_succ, List.map_append,
      List.sum_append, ih]; simp

theorem integrate_length (k ne : ℕ) (points weights : ℕ → ℕ → ℚ) (f : ℚ → ℚ) :
    (integrate k ne points weights f).length = ne := by
  simp [integrate]

theorem integrate_getD (k ne : ℕ) (points weights : ℕ → ℕ → ℚ) (f : ℚ → ℚ)
    (ie : ℕ) (hie : ie < ne) :
    (integrate k ne points weights f).getD ie 0
      = ∑ r ∈ Finset.range k, weights r ie * f (points r ie) := by
  have hlen : ie < ((List.range ne).map fun j =>
      (((column points k j).zip (column weights k j)).map fun xw => xw.2 * f xw.1).sum).length := by
    simpa using hie
  rw [integrate, List.getD_eq_getElem _ _ hlen, List.getElem_map, List.getElem_range]
  rw [column, column, List.zip_map', List.map_map, sum_map_range]
  rfl

/-! ### GlobalProjector model: Kronecker operator and Kronecker solver

The projector/solver code (`psydac/feec/global_projectors.py`,
`psydac/linalg/kron.py`) is not under `src/`; only its tests are.  The model below
follows the spec wording: per-axis square matrices swept one axis at a time. -/

/-- Modelled from the spec: a coefficient array of a `d`-dimensional tensor-product
space with per-axis sizes `n`. -/
abbrev Coef (d : ℕ) (n : Fin d → ℕ) : Type := (∀ j : Fin d, Fin (n j)) → ℚ

/-- Modelled from the spec: one axis sweep of a Kronecker-structured operator —
apply the axis matrix `M` along axis `j`, leaving all other axes untouched. -/
def axisSweep {d : ℕ} {n : Fin d → ℕ} (j : Fin d)
    (M : Matrix (Fin (n j)) (Fin (n j)) ℚ) (c : Coef d n) : Coef d n :=
  fun idx => ∑ t : Fin (n j), M (idx j) t * c (Function.update idx j t)

/-- Sweep the axes of `L` in order, applying the axis matrix `A j` on each axis `j`. -/
def sweepAll {d : ℕ} {n : Fin d → ℕ}
    (A : ∀ j : Fin d, Matrix (Fin (n j)) (Fin (n j)) ℚ)
    (L : List (Fin d)) (c : Coef d n) : Coef d n :=
  L.foldl (fun acc j => axisSweep j (A j) acc) c

/-- Modelled from the spec: a GlobalProjector owns, per axis, a square
interpolation/histopolation matrix and its inverse, composed into a Kronecker
operator (`apply`) and a Kronecker solver (`solve`) by per-axis sweeps in a fixed
canonical axis order, without materializing the full tensor product. -/
structure GlobalProjector (d : ℕ) (n : Fin d → ℕ) where
  imat : ∀ j : Fin d, Matrix (Fin (n j)) (Fin (n j)) ℚ
  inv : ∀ j : Fin d, Matrix (Fin (n j)) (Fin (n j)) ℚ

/-- The Kronecker operator `apply` of a GlobalProjector. -/
def GlobalProjector.apply {d : ℕ} {n : Fin d → ℕ} (P : GlobalProjector d n)
    (c : Coef d n) : Coef d n :=
  sweepAll P.imat (List.finRange d) c

/-- The Kronecker solver `solve` of a GlobalProjector. -/
def GlobalProjector.solve {d : ℕ} {n : Fin d → ℕ} (P : GlobalProjector d n)
    (c : Coef d n) : Coef d n :=
  sweepAll P.inv (List.finRange d) c

/-- Modelled from the spec: `project(f)` of a GlobalProjector (code not under `src/`) —
sample the degrees of freedom of the callable `f` of `d` logical coordinates (point
values on point-evaluating axes, quadrature moments on histopolating axes; the
deterministic extraction is the `sample` map) and apply the Kronecker solver.  The
projector state is only read; the explicit state passing returns it alongside the
coefficients. -/
def GlobalProjector.project {d : ℕ} {n : Fin d → ℕ} (P : GlobalProjector d n)
    (sample : ((Fin d → ℚ) → ℚ) → Coef d n) (f : (Fin d → ℚ) → ℚ) :
    Coef d n × GlobalProjector d n :=
  (P.solve (sample f), P)

/-- Squared Euclidean norm of `(solve ∘ apply − identity)(c)`, the first-class
correctness probe the spec exposes. -/
def kronErrSq {d : ℕ} {n : Fin d → ℕ} (P : GlobalProjector d n) (c : Coef d n) : ℚ :=
  ∑ idx : ∀ j : Fin d, Fin (n j), (P.solve (P.apply c) idx - c idx) ^ 2

theorem axisSweep_axisSweep {d : ℕ} {n : Fin d → ℕ} (j : Fin d)
    (M N : Matrix (Fin (n j)) (Fin (n j)) ℚ) (c : Coef d n) :
    axisSweep j M (axisSweep j N c) = axisSweep j (M * N) c := by
  funext idx
  simp only [axisSweep, Function.update_same, Function.update_idem, Matrix.mul_apply,
    Finset.mul_sum, Finset.sum_mul]
  rw [Finset.sum_comm]
  exact Finset.sum_congr rfl fun s _ => Finset.sum_congr rfl fun t _ => by ring

theorem axisSweep_one {d : ℕ} {n : Fin d → ℕ} (j : Fin d) (c : Coef d n) :
    axisSweep j (1 : Matrix (Fin (n j)) (Fin (n j)) ℚ) c = c := by
  funext idx
  simp only [axisSweep, Matrix.one_apply]
  rw [Finset.sum_eq_single (idx j)]
  · simp [Function.update_eq_self]
  · intro t _ ht
    simp [Ne.symm ht]
  · intro h
    exact absurd (Finset.mem_univ _) h

theorem axisSweep_comm {d : ℕ} {n : Fin d → ℕ} {i j : Fin d} (hij : i ≠ j)
    (M : Matrix (Fin (n i)) (Fin (n i)) ℚ) (N : Matrix (Fin (n j)) (Fin (n j)) ℚ)
    (c : Coef d n) :
    axisSweep i M (axisSweep j N c) = axisSweep j N (axisSweep i M c) := by
  funext idx
  simp only [axisSweep, Function.update_noteq hij, Function.update_noteq hij.symm,
    Finset.mul_sum]
  rw [Finset.sum_comm]
  refine Finset.sum_congr rfl fun s _ => Finset.sum_congr rfl fun t _ => ?_
  rw [Function.update_comm hij]
  ring

theorem sweepAll_cons {d : ℕ} {n : Fin d → ℕ}
    (A : ∀ j : Fin d, Matrix (Fin (n j)) (Fin (n j)) ℚ)
    (i : Fin d) (L : List (Fin d)) (c : Coef d n) :
    sweepAll A (i :: L) c = sweepAll A L (axisSweep i (A i) c) := rfl

theorem axisSweep_sweepAll {d : ℕ} {n : Fin d → ℕ} (j : Fin d)
    (M : Matrix (Fin (n j)) (Fin (n j)) ℚ)
    (A : ∀ i : Fin d, Matrix (Fin (n i)) (Fin (n i)) ℚ)
    (L : List (Fin d)) (hj : j ∉ L) (c : Coef d n) :
    axisSweep j M (sweepAll A L c) = sweepAll A L (axisSweep j M c) := by
  induction L generalizing c with
  | nil => rfl
  | cons i L2 ih =>
    have hji : j ≠ i := fun h => hj (h ▸ List.mem_cons_self i L2)
    have hjL : j ∉ L2 := fun h => hj (List.mem_cons_of_mem i h)
    rw [sweepAll_cons, sweepAll_cons, ih hjL, axisSweep_comm hji]

theorem sweepAll_left_inverse {d : ℕ} {n : Fin d → ℕ}
    (A B : ∀ j : Fin d, Matrix (Fin (n j)) (Fin (n j)) ℚ)
    (hBA : ∀ j : Fin d, B j * A j = 1) (L : List (Fin d)) (hL : L.Nodup)
    (c : Coef d n) :
    sweepAll B L (sweepAll A L c) = c := by
  induction L generalizing c with
  | nil => rfl
  | cons j L2 ih =>
    have hjL : j ∉ L2 := (List.nodup_cons.mp hL).1
    have hL2 : L2.Nodup := (List.nodup_cons.mp hL).2
    rw [sweepAll_cons, sweepAll_cons,
      axisSweep_sweepAll j (B j) A L2 hjL, axisSweep_axisSweep, hBA j, axisSweep_one]
    exact ih hL2 _

/-! ### DerivativeOperator model: per-axis difference stencils

The derivative code (`psydac/feec/derivatives.py`) is not under `src/`; only its
tests are.  The model below follows the spec wording: along each axis the discrete
derivative is the fixed stencil `(c[i] - c[i-1]) / Δknot[i]`; periodic axes wrap the
previous index, clamped axes use the one-sided boundary form.  Both cases are an
instance of an `AxisStencil` with an arbitrary previous-index map and arbitrary
inverse knot spacings. -/

/-- Modelled from the spec: a 3-d scalar coefficient array over the local+ghost
index range. -/
abbrev Coef3 : Type := ℕ → ℕ → ℕ → ℚ

/-- Modelled from the spec: one per-axis 1-d stencil — `prev` is the previous index
along the axis (`i-1` in the interior, wrapped on periodic axes, one-sided at clamped
boundaries) and `w i` the inverse knot spacing `1 / Δknot[i]`. -/
structure AxisStencil where
  prev : ℕ → ℕ
  w : ℕ → ℚ

/-- The stencil of axis 1 applied to a 3-d coefficient array. -/
def Dax1 (s : AxisStencil) (c : Coef3) : Coef3 :=
  fun i j k => (c i j k - c (s.prev i) j k) * s.w i

/-- The stencil of axis 2 applied to a 3-d coefficient array. -/
def Dax2 (s : AxisStencil) (c : Coef3) : Coef3 :=
  fun i j k => (c i j k - c i (s.prev j) k) * s.w j

/-- The stencil of axis 3 applied to a 3-d coefficient array. -/
def Dax3 (s : AxisStencil) (c : Coef3) : Coef3 :=
  fun i j k => (c i j k - c i j (s.prev k)) * s.w k

/-- The three shared per-axis stencils of a 3-d discrete de Rham complex. -/
structure Stencils3 where
  s1 : AxisStencil
  s2 : AxisStencil
  s3 : AxisStencil

/-- Modelled from the spec: `Gradient_3D.apply` — per-axis stencils, one component
per axis. -/
def Gradient_3D (S : Stencils3) (c : Coef3) : Coef3 × Coef3 × Coef3 :=
  (Dax1 S.s1 c, Dax2 S.s2 c, Dax3 S.s3 c)

/-- Modelled from the spec: `Curl_3D.apply` — per-axis stencils combined with the
signs of the exterior-calculus convention. -/
def Curl_3D (S : Stencils3) (u : Coef3 × Coef3 × Coef3) : Coef3 × Coef3 × Coef3 :=
  (fun i j k => Dax2 S.s2 u.2.2 i j k - Dax3 S.s3 u.2.1 i j k,
   fun i j k => Dax3 S.s3 u.1 i j k - Dax1 S.s1 u.2.2 i j k,
   fun i j k => Dax1 S.s1 u.2.1 i j k - Dax2 S.s2 u.1 i j k)

/-- Modelled from the spec: `Divergence_3D.apply` — the sum of the per-axis stencils
over the components. -/
def Divergence_3D (S : Stencils3) (u : Coef3 × Coef3 × Coef3) : Coef3 :=
  fun i j k => Dax1 S.s1 u.1 i j k + Dax2 S.s2 u.2.1 i j k + Dax3 S.s3 u.2.2 i j k

/-- The zero 3-d coefficient array. -/
def zero3 : Coef3 := fun _ _ _ => 0

/-! ### Claim theorems -/

/-- Claim C2: for every GlobalProjector whose per-axis inverse matrices invert the
axis matrices, composing the Kronecker solver with the Kronecker operator is the
identity on every coefficient vector of the owning space: `solve(apply(c)) = c`
exactly, so the squared norm of `(solve ∘ apply − identity)(c)` is `0`, below the
squared `1e-12` solver tolerance. -/
theorem claim_C2_solve_apply_identity {d : ℕ} {n : Fin d → ℕ}
    (P : GlobalProjector d n) (hinv : ∀ j : Fin d, P.inv j * P.imat j = 1)
    (c : Coef d n) :
    P.solve (P.apply c) = c ∧ kronErrSq P c = 0 ∧
      kronErrSq P c < ((1 : ℚ) / 10 ^ 12) ^ 2 := by
  have h : P.solve (P.apply c) = c :=
    sweepAll_left_inverse P.imat P.inv hinv (List.finRange d) (List.nodup_finRange d) c
  have hz : kronErrSq P c = 0 := by simp [kronErrSq, h]
  exact ⟨h, hz, by rw [hz]; positivity⟩

/-- Per-axis sizes of the concrete witness projector. -/
def nW : Fin 2 → ℕ := fun _ => 2

/-- A concrete 2-axis GlobalProjector with explicitly inverted axis matrices. -/
def PW : GlobalProjector 2 nW where
  imat := fun _ => !![1, 1; 0, 1]
  inv := fun _ => !![1, -1; 0, 1]

/-- A concrete coefficient vector of the witness projector's space. -/
def cW : Coef 2 nW := fun idx => (idx 0 : ℚ) + 2 * (idx 1 : ℚ)

/-- Witness for claim C2 at the concrete projector `PW` and vector `cW`. -/
theorem claim_C2_witness :
    PW.solve (PW.apply cW) = cW ∧ kronErrSq PW cW = 0 ∧
      kronErrSq PW cW < ((1 : ℚ) / 10 ^ 12) ^ 2 :=
  claim_C2_solve_apply_identity PW
    (by intro j; simp [PW, Matrix.mul_fin_two]; rw [Matrix.one_fin_two]) cW

/-- Claim C3: composing two consecutive derivative operators of the discrete complex
yields exactly the zero coefficient vector — curl after gradient and divergence after
curl vanish identically, for every choice of per-axis stencils (inverse knot spacings
and periodic/clamped previous-index maps): the discrete `d∘d = 0`, falling out of the
per-axis stencil algebra rather than being separately enforced. -/
theorem claim_C3_dd_zero (S : Stencils3) (c : Coef3) (u : Coef3 × Coef3 × Coef3) :
    Curl_3D S (Gradient_3D S c) = (zero3, zero3, zero3) ∧
    Divergence_3D S (Curl_3D S u) = zero3 := by
  constructor
  · refine Prod.ext ?_ (Prod.ext ?_ ?_) <;> funext i j k <;>
      simp only [Curl_3D, Gradient_3D, Dax1, Dax2, Dax3, zero3] <;> ring
  · funext i j k
    simp only [Divergence_3D, Curl_3D, Dax1, Dax2, Dax3, zero3]
    ring

/-- Claim C4: `integrate(points, weights, f)` returns exactly `ne` scalars
(`ne = points.shape[1]`), and the entry for element `ie` equals
`∑_k weights[k, ie] * f(points[k, ie])`. -/
theorem claim_C4_integrate (k ne : ℕ) (points weights : ℕ → ℕ → ℚ) (f : ℚ → ℚ) :
    (integrate k ne points weights f).length = ne ∧
    ∀ ie : ℕ, ie < ne → (integrate k ne points weights f).getD ie 0
      = ∑ r ∈ Finset.range k, weights r ie * f (points r ie) :=
  ⟨integrate_length k ne points weights f,
   fun ie hie => integrate_getD k ne points weights f ie hie⟩

/-- Witness for claim C4: a 2-point rule on 3 elements with concrete arrays. -/
theorem claim_C4_witness :
    (integrate 2 3 (fun r ie => (r : ℚ) + ie) (fun r ie => (r : ℚ) * ie + 1)
        (fun x => x * x)).length = 3 ∧
    (integrate 2 3 (fun r ie => (r : ℚ) + ie) (fun r ie => (r : ℚ) * ie + 1)
        (fun x => x * x)).getD 1 0
      = ∑ r ∈ Finset.range 2, ((r : ℚ) * 1 + 1) * (((r : ℚ) + 1) * ((r : ℚ) + 1)) :=
  ⟨(claim_C4_integrate 2 3 _ _ _).1,
   (claim_C4_integrate 2 3 (fun r ie => (r : ℚ) + ie) (fun r ie => (r : ℚ) * ie + 1)
      (fun x => x * x)).2 1 (by decide)⟩

/-- Claim C5: construction of an Integral never rejects a quadrature order below the
contract minimum `p + 1` (any explicit `k` is accepted silently), an omitted `k`
defaults to exactly `p + 1`, and in that case the Gauss-Legendre generator is
consulted only at `k - 1 = p`. -/
theorem claim_C5_integral_default_order (gl gl2 : ℕ → List ℚ × List ℚ) (p n : ℕ)
    (T : List ℚ) (kind : String) (hkind : kind = "natural" ∨ kind = "greville")
    (h2 : gl2 p = gl p) :
    (∀ k : ℕ, (Integral.make gl p n T kind (some k)).isSome = true) ∧
    Integral.make gl p n T kind none = Integral.make gl p n T kind (some (p + 1)) ∧
    Integral.make gl2 p n T kind none = Integral.make gl p n T kind none := by
  refine ⟨fun k => ?_, ?_, ?_⟩ <;> simp [Integral.make, hkind, h2]

/-- A concrete stand-in for the Gauss-Legendre generator used in witnesses. -/
def glW : ℕ → List ℚ × List ℚ :=
  fun m => ((List.range (m + 1)).map fun r => (r : ℚ) / (m + 1),
            (List.range (m + 1)).map fun _ => (1 : ℚ) / (m + 1))

/-- A concrete open knot vector for degree 2 with 4 basis functions. -/
def Tw : List ℚ := [0, 0, 0, 1/2, 1, 1, 1]

/-- Witness for claim C5 at `p = 2`, including the under-provisioned order `k = 1 < 3`. -/
theorem claim_C5_witness :
    (Integral.make glW 2 4 Tw "natural" (some 1)).isSome = true ∧
    Integral.make glW 2 4 Tw "natural" none
      = Integral.make glW 2 4 Tw "natural" (some 3) ∧
    Integral.make glW 2 4 Tw "natural" none = Integral.make glW 2 4 Tw "natural" none :=
  have h := claim_C5_integral_default_order glW glW 2 4 Tw "natural" (Or.inl rfl) rfl
  ⟨h.1 1, h.2.1, h.2.2⟩

/-- Claim C6: a kind outside {natural, greville} fails the construction-time
assertion — the guard sits before any grid or quadrature state is built, so no object
exists; for a kind in that set the check passes and an object is built. -/
theorem claim_C6_kind_assertion (gl : ℕ → List ℚ × List ℚ) (p n : ℕ) (T : List ℚ)
    (kind : String) (k : Option ℕ) :
    Integral.make gl p n T kind k = none ↔ ¬(kind = "natural" ∨ kind = "greville") := by
  by_cases h : kind = "natural" ∨ kind = "greville" <;> simp [Integral.make, h]

/-- Claim C7: calling an Interpolation returns `[f(x) for x in sites]` in site order,
one entry per site; sites omitted at construction default to the Greville abscissae
of the spline space `(p, n, T)`, while supplied sites are stored as given. -/
theorem claim_C7_interpolation_call (p n : ℕ) (T : List ℚ) (s : List ℚ) (f : ℚ → ℚ) :
    (∀ o : InterpolationObj, (o.call f).1.length = o.sites.length ∧
      ∀ i : ℕ, i < o.sites.length → (o.call f).1.getD i 0 = f (o.sites.getD i 0)) ∧
    (Interpolation.make p n T none).sites = compute_greville p n T ∧
    (Interpolation.make p n T (some s)).sites = s := by
  refine ⟨fun o => ⟨by simp [InterpolationObj.call], fun i hi => ?_⟩, rfl, rfl⟩
  show (o.sites.map f).getD i 0 = f (o.sites.getD i 0)
  rw [List.getD_eq_getElem _ _ (by simpa using hi), List.getElem_map,
    List.getD_eq_getElem _ _ hi]

/-- Witness for claim C7 at the default-site Interpolation of `(2, 4, Tw)`. -/
theorem claim_C7_witness :
    ((Interpolation.make 2 4 Tw none).call (fun x => x + 1)).1.length
      = (Interpolation.make 2 4 Tw none).sites.length ∧
    ((Interpolation.make 2 4 Tw none).call (fun x => x + 1)).1.getD 0 0
      = (Interpolation.make 2 4 Tw none).sites.getD 0 0 + 1 ∧
    (Interpolation.make 2 4 Tw none).sites = compute_greville 2 4 Tw :=
  have h := claim_C7_interpolation_call 2 4 Tw [] (fun x => x + 1)
  ⟨(h.1 (Interpolation.make 2 4 Tw none)).1,
   (h.1 (Interpolation.make 2 4 Tw none)).2 0 (by decide), h.2.1⟩

/-- Claim C8: repeated application of the same built operator to the same function is
deterministic — a second call, made on the object returned by the first call, yields
the same output array, for Integral and Interpolation objects and for every
GlobalProjector applied to the same function through the same deterministic
degree-of-freedom sampling. -/
theorem claim_C8_call_deterministic {d : ℕ} {nn : Fin d → ℕ} (f g : ℚ → ℚ)
    (h : (Fin d → ℚ) → ℚ) (sample : ((Fin d → ℚ) → ℚ) → Coef d nn) :
    (∀ o : IntegralObj, ((o.call f).2.call f).1 = (o.call f).1) ∧
    (∀ o : InterpolationObj, ((o.call g).2.call g).1 = (o.call g).1) ∧
    (∀ P : GlobalProjector d nn,
      ((P.project sample h).2.project sample h).1 = (P.project sample h).1) :=
  ⟨fun _ => rfl, fun _ => rfl, fun _ => rfl⟩

/-- Claim C9: a built operator is immutable under application — a call returns the
whole stored state (grid, kind, points, weights, p, n, T for an Integral; sites, p,
n, T for an Interpolation) unchanged; all assembly happens at construction. -/
theorem claim_C9_call_immutable (f g : ℚ → ℚ) :
    (∀ o : IntegralObj, (o.call f).2 = o) ∧
    (∀ o : InterpolationObj, (o.call g).2 = o) :=
  ⟨fun _ => rfl, fun _ => rfl⟩

/-- Claim C10: with kind greville the integration grid is the Greville abscissae and
a call returns (number of Greville points − 1) element integrals, while with kind
natural the grid is the one induced by the knot vector. -/
theorem claim_C10_greville_grid (gl : ℕ → List ℚ × List ℚ) (p n : ℕ) (T : List ℚ)
    (k : Option ℕ) (f : ℚ → ℚ) :
    (Integral.make gl p n T "greville" k).map IntegralObj.grid
      = some (compute_greville p n T) ∧
    (Integral.make gl p n T "greville" k).map (fun o => (o.call f).1.length)
      = some ((compute_greville p n T).length - 1) ∧
    (Integral.make gl p n T "natural" k).map IntegralObj.grid
      = some (construct_grid_from_knots p n T) ∧
    (Integral.make gl p n T "natural" k).map (fun o => (o.call f).1.length)
      = some ((construct_grid_from_knots p n T).length - 1) := by
  refine ⟨?_, ?_, ?_, ?_⟩ <;>
    simp [Integral.make, IntegralObj.call, integrate_length]
